import Mathlib

/-!
Verification of the grizzly reduction oracle (`grizzly/reduce/interesting.py`)
and target controller (`grizzly/target/puppet_target.py`) against their
natural-language specification.

The Python sources are shallowly embedded below.  Pure fragments become Lean
functions; the mutable `Interesting` / `PuppetTarget` objects become explicit
state records threaded through the functions; Python floats (elapsed times,
CPU percentages, timeouts) are modelled as rationals; fallible paths return
`Except`.  Side effects that the claims observe (files copied during cache
replay, callbacks invoked, trials executed, sleeps performed, events set,
threads joined) are reified as explicit outputs so that theorems can speak
about them.  Trial outcomes, launch-attempt outcomes and CPU samples are
supplied as oracle parameters, since they come from the external browser
process.
-/

/-- Character-list test: `p` is a prefix of `s` (used to model the shell glob
`"<pfx>_*"`, whose `*` matches any run of non-separator characters). -/
def startsList : List Char → List Char → Bool
  | [], _ => true
  | _ :: _, [] => false
  | c :: p, d :: s => c = d && startsList p s

/-- The characters after the first `'_'` of a list, if any.  This is the
character-level core of Python's `split("_", 1)[1]`. -/
def afterUnderscoreAux : List Char → Option (List Char)
  | [] => none
  | c :: rest => if c = '_' then some rest else afterUnderscoreAux rest

/-- Python's `s.split("_", 1)[1]`: everything after the first underscore of
`s`, or `none` when `s` has no underscore (where Python would raise
`IndexError`). -/
def afterUnderscore (s : String) : Option String :=
  (afterUnderscoreAux s.data).map fun l => String.mk l

/-- A crash signature (`Crash[Info]` fingerprint); opaque to the oracle, which
only builds one (`createCrashSignature(maxFrames=5)`) and tests `matches`. -/
structure Sig where
  fp : Nat
deriving DecidableEq, Repr

/-- The slice of a FuzzManager crash report the oracle looks at:
`createShortSignature()` output.  `crash_id` keeps distinct reports distinct
for the opaque `matches` / `createCrashSignature` parameters. -/
structure CrashReport where
  short_sig : String
  crash_id : Nat
deriving DecidableEq, Repr

/-- One value of the Python dict `self.result_cache[cache_key]`:
`{'result': bool, 'prefix': str}` (the artifact path stem is field `pfx`). -/
structure CacheEntry where
  result : Bool
  pfx : String
deriving DecidableEq, Repr

/-- Kind of a filesystem entry as seen by the cache-replay loop:
`os.path.isfile`, `os.path.isdir`, or neither. -/
inductive EntryKind
  | file
  | dir
  | other
deriving DecidableEq, Repr

/-- A filesystem entry: a name (the model keeps all artifact entries in one
flat directory, so the name is its own basename) and its kind. -/
structure FsEntry where
  name : String
  kind : EntryKind
deriving DecidableEq, Repr

/-- Mutable state of the Python `Interesting` object — the fields read or
written by the methods modelled here (`interesting`, `_run`'s classification
step, `update_timeout`, `init`).  The callbacks `interesting_cb` and
`alt_crash_cb` are modelled by presence flags; file-system paths
(`wwwdir`, `landing_page`, `reduce_file`) are handled by the callers and ids
passed in explicitly. -/
structure Interesting where
  skip : Nat
  skipped : Option Nat
  min_crashes : Nat
  repeat_n : Nat
  any_crash : Bool
  use_result_cache : Bool
  result_cache : List (String × CacheEntry)
  orig_sig : Option Sig
  interesting_cb_present : Bool
  alt_crash_cb_present : Bool
  idle_timeout : ℚ
  iter_timeout : ℚ
  server_present : Bool
deriving DecidableEq, Repr

/-- Lookup in the Python dict `self.result_cache` (keys are sha1 hex digests
of the candidate's bytes). -/
def cacheLookup (cache : List (String × CacheEntry)) (k : String) : Option CacheEntry :=
  match cache with
  | [] => none
  | (k', v) :: rest => if k' = k then some v else cacheLookup rest k

/-- Assignment `self.result_cache[cache_key] = v`: any previous binding of the
key is replaced. -/
def cacheInsert (cache : List (String × CacheEntry)) (k : String) (v : CacheEntry) :
    List (String × CacheEntry) :=
  (k, v) :: cache.filter fun p => decide (p.1 ≠ k)

/-- `glob.glob(r"%s_*" % cached_pfx)`: the entries whose name extends the
cached artifact stem by `_` and anything further. -/
def globMatches (fs : List FsEntry) (cachedPfx : String) : List FsEntry :=
  fs.filter fun e => startsList (cachedPfx ++ "_").data e.name.data

/-- Cache-replay loop body of `Interesting.interesting` (interesting.py
167-175): for each glob match, split its basename at the first `_`, then copy
file→file / dir→dir to `temp_prefix + "_" + suffix`, and raise
`RuntimeError` on an entry that is neither a file nor a directory.  Output:
the copies performed, as (source, destination, kind). -/
def replayCache (tmpPfx : String) : List FsEntry → Except String (List (String × String × EntryKind))
  | [] => .ok []
  | e :: rest =>
    match e.kind with
    | .other => .error ("Cannot copy non-file/non-directory: " ++ e.name)
    | k =>
      match afterUnderscore e.name with
      | none => .error "IndexError: list index out of range"
      | some suf =>
        (replayCache tmpPfx rest).map fun l => (e.name, tmpPfx ++ "_" ++ suf, k) :: l

/-- Result of one `Interesting.interesting` call: the verdict, the updated
object state, the number of `_run` trials actually executed, the cache-replay
copies performed, and whether `interesting_cb` was invoked. -/
structure EvalOut where
  result : Bool
  state : Interesting
  runs_count : Nat
  copies : List (String × String × EntryKind)
  cb_invoked : Bool
deriving DecidableEq, Repr

/-- The `for i in range(n_tries)` trial loop of `Interesting.interesting`
(interesting.py 179-192), with `_run` outcomes supplied by the oracle
`runs`.  `fuel` is the number of loop indices left (`n_tries - i`), so the
recursion is structural; it is started with `fuel = n_tries`, `i = 0`,
`n_crashes = 0`.  Returns the loop's verdict and how many `_run` calls were
made. -/
def runLoop (minC : Nat) (runs : Nat → Bool) (nTries : Nat) :
    Nat → Nat → Nat → Bool × Nat
  | 0, _, _ => (false, 0)
  | fuel + 1, i, nCrashes =>
    if (nTries : ℤ) - (i : ℤ) < (minC : ℤ) - (nCrashes : ℤ) then
      (false, 0)
    else if runs i then
      if minC ≤ nCrashes + 1 then
        (true, 1)
      else
        let r := runLoop minC runs nTries fuel (i + 1) (nCrashes + 1)
        (r.1, r.2 + 1)
    else
      let r := runLoop minC runs nTries fuel (i + 1) nCrashes
      (r.1, r.2 + 1)

/-- Number of `true` trial outcomes among `runs i, …, runs (i+n-1)`. -/
def crashesIn (runs : Nat → Bool) (i : Nat) : Nat → Nat
  | 0 => 0
  | n + 1 => (if runs i then 1 else 0) + crashesIn runs (i + 1) n

/-- `Interesting.interesting` after the skip block (interesting.py 157-200):
cache lookup (with replay of artifacts on a cached-true hit), otherwise the
trial loop followed by caching of the verdict. -/
def evalCore (st : Interesting) (cacheKey tmpPfx : String) (fs : List FsEntry)
    (runs : Nat → Bool) : Except String EvalOut :=
  let nTries := max st.repeat_n st.min_crashes
  match if st.use_result_cache then cacheLookup st.result_cache cacheKey else none with
  | some entry =>
    if entry.result then
      match replayCache tmpPfx (globMatches fs entry.pfx) with
      | .error e => .error e
      | .ok copies => .ok ⟨true, st, 0, copies, false⟩
    else
      .ok ⟨false, st, 0, [], false⟩
  | none =>
    let r := runLoop st.min_crashes runs nTries nTries 0 0
    if r.1 then
      .ok ⟨true,
        { st with result_cache :=
            if st.use_result_cache then cacheInsert st.result_cache cacheKey ⟨true, tmpPfx⟩
            else st.result_cache },
        r.2, [], st.interesting_cb_present⟩
    else
      .ok ⟨false,
        { st with result_cache :=
            if st.use_result_cache then cacheInsert st.result_cache cacheKey ⟨false, tmpPfx⟩
            else st.result_cache },
        r.2, [], false⟩

/-- `Interesting.interesting` (interesting.py 137-200).  The skip block:
when `skip` is nonzero, a first call (skipped unset) initializes the counter
to 0 and falls through to a normal evaluation; while the counter is below
`skip` the call bumps it and returns False at once; afterwards calls evaluate
normally. -/
def Interesting.interesting (st : Interesting) (cacheKey tmpPfx : String)
    (fs : List FsEntry) (runs : Nat → Bool) : Except String EvalOut :=
  if st.skip ≠ 0 then
    match st.skipped with
    | none => evalCore { st with skipped := some 0 } cacheKey tmpPfx fs runs
    | some k =>
      if k < st.skip then
        .ok ⟨false, { st with skipped := some (k + 1) }, 0, [], false⟩
      else
        evalCore st cacheKey tmpPfx fs runs
  else
    evalCore st cacheKey tmpPfx fs runs

/-- Whether the skip block of this call short-circuits to False (the branch
taken at interesting.py 154-156). -/
def skipsNow (st : Interesting) : Bool :=
  st.skip ≠ 0 &&
    match st.skipped with
    | none => false
    | some k => k < st.skip

/-- `Interesting.init` (interesting.py 89-95) restricted to oracle state:
resets the skip counter to unset and clears the result cache (the path
resolution of `wwwdir`/`landing_page` is not part of the modelled state). -/
def Interesting.init (st : Interesting) : Interesting :=
  { st with skipped := none, result_cache := [] }

/-- `Interesting.update_timeout` (interesting.py 111-127).  `run_time * 1.5`
and `run_time * 2` on floats become exact rational arithmetic.  Closing and
dropping `self.server` when `iter_timeout` shrinks becomes clearing
`server_present`. -/
def Interesting.update_timeout (st : Interesting) (run_time : ℚ) : Interesting :=
  let new_poll_timeout := max 10 (min (run_time * (3 / 2)) st.idle_timeout)
  let st1 :=
    if new_poll_timeout < st.idle_timeout then
      { st with idle_timeout := new_poll_timeout }
    else st
  let new_iter_timeout := max 10 (min (run_time * 2) st1.iter_timeout)
  if new_iter_timeout < st1.iter_timeout then
    { st1 with iter_timeout := new_iter_timeout, server_present := false }
  else st1

/-- Output of the crash-classification step of one trial. -/
structure ClassifyOut where
  result : Bool
  state : Interesting
  alt_cb_invoked : Bool
deriving Repr

/-- The classification step of `Interesting._run` for a trial whose failure
check returned `RESULT_FAILURE` (interesting.py 293-306): inspect the crash
report's short signature, count the crash if there is no reference signature
yet or the report matches it (adopting a 5-frame fingerprint as the reference
on a first crash unless `any_crash` is set, and updating the timeouts with
the trial's elapsed time), otherwise invoke the alt-crash callback.
`sigMatch` and `mkSig5` stand for `Signature.matches` and
`createCrashSignature(maxFrames=5)` of the external crash-report library. -/
def classifyFailure (sigMatch : Sig → CrashReport → Bool) (mkSig5 : CrashReport → Sig)
    (st : Interesting) (crash : CrashReport) (elapsed : ℚ) : ClassifyOut :=
  if crash.short_sig = "No crash detected" then
    ⟨false, st, false⟩
  else
    match st.orig_sig with
    | none =>
      let st1 := if ¬ st.any_crash then { st with orig_sig := some (mkSig5 crash) } else st
      ⟨true, st1.update_timeout elapsed, false⟩
    | some s =>
      if sigMatch s crash then
        ⟨true, st.update_timeout elapsed, false⟩
      else
        ⟨false, st, st.alt_crash_cb_present⟩

/-- `Target.RESULT_*` classification of one trial (target.py constants used by
puppet_target.py and interesting.py). -/
inductive ResultClass
  | resultNone
  | failure
  | ignored
deriving DecidableEq, Repr

/-- `FFPuppet.reason` after the target has been closed: `RC_CLOSED` (close was
requested), `RC_EXITED` (the browser exited on its own), `RC_WORKER` (a
resource-limit worker terminated it), or any other abnormal code. -/
inductive PuppetReason
  | rc_closed
  | rc_exited
  | rc_worker
  | rc_other
deriving DecidableEq, Repr

/-- Observation of the FFPuppet process consumed by `detect_failure`:
`is_healthy()` sampled on entry, the `reason` the puppet reports once closed,
and `available_logs()` (artifact kinds present).  The terminate/abort side
effects of lines 105-112 do not influence the returned status and are not
recorded. -/
structure PuppetObs where
  is_healthy : Bool
  reason : PuppetReason
  available_logs : List String
deriving DecidableEq, Repr

/-- `PuppetTarget.detect_failure` (puppet_target.py 98-135) as a function of
the puppet observation, the ignore list and the timeout flag. -/
def PuppetTarget.detect_failure (obs : PuppetObs) (ignored : List String)
    (was_timeout : Bool) : ResultClass :=
  if ¬ obs.is_healthy then
    match obs.reason with
    | .rc_closed => .resultNone
    | .rc_exited => .resultNone
    | .rc_worker =>
      if "memory" ∈ ignored ∧ "ffp_worker_memory_usage" ∈ obs.available_logs then
        .ignored
      else if "log-limit" ∈ ignored ∧ "ffp_worker_log_size" ∈ obs.available_logs then
        .ignored
      else
        .failure
    | .rc_other => .failure
  else if was_timeout then
    if "timeout" ∈ ignored then .ignored else .failure
  else
    .resultNone

/-- `Target.POLL_*` results of `poll_for_idle`. -/
inductive PollResult
  | busy
  | idle
deriving DecidableEq, Repr

/-- One iteration's observation inside `poll_for_idle`: the per-process CPU
percentages returned by `cpu_usage()` and the subsequent `is_running()`
answer. -/
structure IdleObs where
  cpus : List ℚ
  running : Bool
deriving DecidableEq, Repr

/-- Every CPU sample of this observation is strictly below the threshold. -/
def belowAll (threshold : ℚ) (o : IdleObs) : Bool :=
  o.cpus.all fun c => decide (c < threshold)

/-- `PuppetTarget.poll_for_idle` (puppet_target.py 85-96).  The `interval`
seconds of wall-clock polling become the finite list `window` of
observations; consuming the whole list is the full window elapsing.  A sample
at or above the threshold returns `POLL_BUSY` at once; the target no longer
running breaks out early; both the break and window exhaustion return
`POLL_IDLE`. -/
def PuppetTarget.poll_for_idle (threshold : ℚ) : List IdleObs → PollResult
  | [] => .idle
  | o :: rest =>
    if belowAll threshold o then
      if o.running then PuppetTarget.poll_for_idle threshold rest else .idle
    else
      .busy

/-- `Interesting.monitor_process` (interesting.py 97-109) after its initial
`idle_timeout` wait.  Each round is the `iteration_done_event.is_set()`
answer observed at the top of the `while` loop, paired with the observations
the next `poll_for_idle` call would consume; the rounds list ends when the
done event stops the loop.  Returns whether `idle_timeout_event` was set. -/
def Interesting.monitor_process (threshold : ℚ) :
    List (Bool × List IdleObs) → Bool
  | [] => false
  | (done, window) :: rest =>
    if done then false
    else
      match PuppetTarget.poll_for_idle threshold window with
      | .idle => true
      | .busy => Interesting.monitor_process threshold rest

/-- Errors that collaborators can raise inside a trial's `try` block. -/
inductive TrialErr
  | serve_error
  | classify_error
  | relaunch_check_error
deriving DecidableEq, Repr

/-- Observable events of one `Interesting._run` trial, in order of
occurrence: monitor thread started, the serve / classification /
`check_relaunch` steps completing, the `finally` block setting
`iteration_done_event` and joining the monitor thread. -/
inductive TrialEvent
  | monitor_started
  | served
  | classified
  | relaunch_checked
  | done_event_set
  | monitor_joined
deriving DecidableEq, Repr

/-- The `try` body of `Interesting._run` (interesting.py 243-321): start the
monitor, serve the testcase (may raise), classify the outcome (log saving /
report building may raise), then `check_relaunch` (may raise).  Stage
outcomes are supplied by oracles; the event trace records how far the body
got. -/
def tryBody (serveR : Except TrialErr Bool) (classifyR : Bool → Except TrialErr Bool)
    (relaunchR : Except TrialErr Unit) : Except TrialErr Bool × List TrialEvent :=
  match serveR with
  | .error e => (.error e, [.monitor_started])
  | .ok served_timeout =>
    match classifyR served_timeout with
    | .error e => (.error e, [.monitor_started, .served])
    | .ok result =>
      match relaunchR with
      | .error e => (.error e, [.monitor_started, .served, .classified])
      | .ok _ => (.ok result, [.monitor_started, .served, .classified, .relaunch_checked])

/-- `Interesting._run`'s `try`/`finally` (interesting.py 243-327): whatever
the body does, the `finally` block sets `iteration_done_event` and joins the
monitor thread, and only then does `_run` return (normally or by re-raising
the body's error). -/
def runTrialEvents (serveR : Except TrialErr Bool)
    (classifyR : Bool → Except TrialErr Bool) (relaunchR : Except TrialErr Unit) :
    Except TrialErr Bool × List TrialEvent :=
  let body := tryBody serveR classifyR relaunchR
  (body.1, body.2 ++ [.done_event_set, .monitor_joined])

/-- Outcome of the launch-retry block of `Interesting._run`: how many
`target.launch` attempts were made, how many fixed 15-second sleeps were
performed, and whether a launch succeeded. -/
structure RelaunchOut where
  attempts_made : Nat
  sleeps : Nat
  launched : Bool
deriving DecidableEq, Repr

/-- The `for _ in range(4)` retry loop of `Interesting._run` (interesting.py
235-241): attempt `target.launch`; success breaks the loop; a launch failure
is caught, logged, and followed by `time.sleep(15)`.  Modelled from the spec:
the launch errors raised by `PuppetTarget.launch` (whose exception classes
live in target.py, outside the sources) are the ones this `except` clause
catches, so a failed attempt never propagates.  Attempt outcomes come from
the oracle `attempts`; `fuel` counts the loop iterations left. -/
def launchRetryLoop (attempts : Nat → Bool) : Nat → Nat → RelaunchOut
  | 0, _ => ⟨0, 0, false⟩
  | fuel + 1, i =>
    if attempts i then
      ⟨1, 0, true⟩
    else
      let o := launchRetryLoop attempts fuel (i + 1)
      ⟨o.attempts_made + 1, o.sleeps + 1, o.launched⟩

/-- The launch block of `Interesting._run` (interesting.py 232-241): nothing
happens unless the target is closed; otherwise the 4-attempt retry loop runs.
Exhausting the loop raises nothing — the function always returns. -/
def relaunchIfClosed (closed : Bool) (attempts : Nat → Bool) : RelaunchOut :=
  if closed then launchRetryLoop attempts 4 0 else ⟨0, 0, false⟩

/-- Lookup in a Python dict modelled as an association list (first match after
`dinsert` keeps exactly one binding per key).  Values are `Option String`
because grizzly maps an empty environment value to `None` (an unset marker). -/
def dlookup (d : List (String × Option String)) (k : String) : Option (Option String) :=
  match d with
  | [] => none
  | (k', v) :: rest => if k' = k then some v else dlookup rest k

/-- Python dict assignment `d[k] = v`: replace any binding of `k`. -/
def dinsert (d : List (String × Option String)) (k : String) (v : Option String) :
    List (String × Option String) :=
  (d.filter fun p => decide (p.1 ≠ k)) ++ [(k, v)]

/-- `dict(pairs)`: build a dict from key/value pairs, later pairs winning. -/
def dictOf (l : List (String × Option String)) : List (String × Option String) :=
  l.foldl (fun d p => dinsert d p.1 p.2) []

/-- `PuppetTarget.launch` (puppet_target.py 189-206) up to the hand-off to
`FFPuppet.launch`: require a prefs.js file, copy the caller's `env_mod`
(`dict(env_mod or [])`), then force `MOZ_DISABLE_NONLOCAL_CONNECTIONS=1` and
`MOZ_CRASHREPORTER_SHUTDOWN=1`.  Returns the environment mapping passed to
the puppet process. -/
def PuppetTarget.launch (prefs : Option String)
    (env_mod : Option (List (String × Option String))) :
    Except String (List (String × Option String)) :=
  match prefs with
  | none => .error "A prefs.js file is required"
  | some _ =>
    let env0 := dictOf (env_mod.getD [])
    let env1 := dinsert env0 "MOZ_DISABLE_NONLOCAL_CONNECTIONS" (some "1")
    let env2 := dinsert env1 "MOZ_CRASHREPORTER_SHUTDOWN" (some "1")
    .ok env2

/-- Verdict projection of an `interesting` call, for stating concrete facts. -/
def evalResult (r : Except String EvalOut) : Option Bool :=
  r.toOption.map fun o => o.result

/-- Trial-count projection of an `interesting` call. -/
def evalRuns (r : Except String EvalOut) : Option Nat :=
  r.toOption.map fun o => o.runs_count

/-- Replay-copies projection of an `interesting` call. -/
def evalCopies (r : Except String EvalOut) : Option (List (String × String × EntryKind)) :=
  r.toOption.map fun o => o.copies

/-- The state `interesting`'s skip block leaves behind before evaluating: an
unset skip counter is initialized to 0 when skipping is enabled. -/
def stSkip (st : Interesting) : Interesting :=
  if st.skip ≠ 0 ∧ st.skipped = none then { st with skipped := some 0 } else st

theorem interesting_eq_evalCore (st : Interesting) (k p : String) (fs : List FsEntry)
    (runs : Nat → Bool) (h : skipsNow st = false) :
    Interesting.interesting st k p fs runs = evalCore (stSkip st) k p fs runs := by
  by_cases h0 : st.skip = 0
  · simp [Interesting.interesting, stSkip, h0]
  · cases hs : st.skipped with
    | none => simp [Interesting.interesting, stSkip, h0, hs]
    | some j =>
      have hj : ¬ j < st.skip := by
        intro hlt
        simp only [skipsNow, hs] at h
        simp [h0, hlt] at h
      simp [Interesting.interesting, stSkip, h0, hs, hj]

theorem stSkip_fields (st : Interesting) :
    (stSkip st).min_crashes = st.min_crashes ∧ (stSkip st).repeat_n = st.repeat_n ∧
    (stSkip st).use_result_cache = st.use_result_cache ∧
    (stSkip st).result_cache = st.result_cache ∧
    (stSkip st).interesting_cb_present = st.interesting_cb_present := by
  unfold stSkip
  split <;> simp

/-- C3: `detect_failure(ignored, was_timeout)` returns None when the target is
healthy and `was_timeout` is false; None when the exit reason is an explicit
close-request or self-exit; Ignored when the exit reason is a resource-limit
(worker) exit whose category ('memory' or 'log-limit') is in the ignore set
and whose corresponding artifact log is present; Failure for any other
abnormal exit; and for a timeout with the target otherwise healthy, Ignored
if 'timeout' is in the ignore set, else Failure. -/
theorem C3_detect_failure (obs : PuppetObs) (ignored : List String) (wt : Bool) :
    (obs.is_healthy = true → wt = false →
      PuppetTarget.detect_failure obs ignored wt = .resultNone)
  ∧ (obs.is_healthy = false → (obs.reason = .rc_closed ∨ obs.reason = .rc_exited) →
      PuppetTarget.detect_failure obs ignored wt = .resultNone)
  ∧ (obs.is_healthy = false → obs.reason = .rc_worker →
      (("memory" ∈ ignored ∧ "ffp_worker_memory_usage" ∈ obs.available_logs) ∨
       ("log-limit" ∈ ignored ∧ "ffp_worker_log_size" ∈ obs.available_logs)) →
      PuppetTarget.detect_failure obs ignored wt = .ignored)
  ∧ (obs.is_healthy = false → obs.reason = .rc_worker →
      ¬ ("memory" ∈ ignored ∧ "ffp_worker_memory_usage" ∈ obs.available_logs) →
      ¬ ("log-limit" ∈ ignored ∧ "ffp_worker_log_size" ∈ obs.available_logs) →
      PuppetTarget.detect_failure obs ignored wt = .failure)
  ∧ (obs.is_healthy = false → obs.reason = .rc_other →
      PuppetTarget.detect_failure obs ignored wt = .failure)
  ∧ (obs.is_healthy = true → wt = true →
      ("timeout" ∈ ignored → PuppetTarget.detect_failure obs ignored wt = .ignored) ∧
      ("timeout" ∉ ignored → PuppetTarget.detect_failure obs ignored wt = .failure)) := by
  refine ⟨?_, ?_, ?_, ?_, ?_, ?_⟩
  · intro h1 h2
    simp [PuppetTarget.detect_failure, h1, h2]
  · intro h1 h2
    rcases h2 with h2 | h2 <;> simp [PuppetTarget.detect_failure, h1, h2]
  · intro h1 h2 h3
    rcases h3 with ⟨ha, hb⟩ | ⟨ha, hb⟩
    · simp [PuppetTarget.detect_failure, h1, h2, ha, hb]
    · by_cases hm : "memory" ∈ ignored ∧ "ffp_worker_memory_usage" ∈ obs.available_logs <;>
        simp [PuppetTarget.detect_failure, h1, h2, ha, hb, hm]
  · intro h1 h2 h3 h4
    simp [PuppetTarget.detect_failure, h1, h2, h3, h4]
  · intro h1 h2
    simp [PuppetTarget.detect_failure, h1, h2]
  · intro h1 h2
    constructor <;> intro h3 <;> simp [PuppetTarget.detect_failure, h1, h2, h3]

/-- Witness for C3 at concrete inputs: a healthy target with no timeout is
classified None, and an ignored-worker memory exit is classified Ignored. -/
theorem C3_detect_failure_witness :
    PuppetTarget.detect_failure ⟨true, .rc_other, []⟩ ["timeout"] false = .resultNone ∧
    PuppetTarget.detect_failure ⟨false, .rc_worker, ["ffp_worker_memory_usage"]⟩
      ["memory"] false = .ignored :=
  ⟨(C3_detect_failure ⟨true, .rc_other, []⟩ ["timeout"] false).1 rfl rfl,
   (C3_detect_failure ⟨false, .rc_worker, ["ffp_worker_memory_usage"]⟩ ["memory"] false).2.2.1
     rfl rfl (Or.inl ⟨by decide, by decide⟩)⟩

/-- C6: `update_timeout(elapsed)` sets `idle_timeout` to
`max(10, min(1.5*elapsed, idle_timeout))` only when that value is smaller
than the current one, and `iter_timeout` to
`max(10, min(2*elapsed, iter_timeout))` only when smaller; `elapsed = 5` with
`idle_timeout = 60` yields `idle_timeout = 10`; neither timeout ever
increases, and exactly when `iter_timeout` shrinks the current content server
is discarded so the next trial builds one with the new timeout. -/
theorem C6_update_timeout (st : Interesting) (e : ℚ) :
    ((st.update_timeout e).idle_timeout =
      if max 10 (min (e * (3 / 2)) st.idle_timeout) < st.idle_timeout
      then max 10 (min (e * (3 / 2)) st.idle_timeout) else st.idle_timeout)
  ∧ ((st.update_timeout e).iter_timeout =
      if max 10 (min (e * 2) st.iter_timeout) < st.iter_timeout
      then max 10 (min (e * 2) st.iter_timeout) else st.iter_timeout)
  ∧ (st.update_timeout e).idle_timeout ≤ st.idle_timeout
  ∧ (st.update_timeout e).iter_timeout ≤ st.iter_timeout
  ∧ ((st.update_timeout e).server_present =
      if max 10 (min (e * 2) st.iter_timeout) < st.iter_timeout
      then false else st.server_present)
  ∧ (st.idle_timeout = 60 → (st.update_timeout 5).idle_timeout = 10) := by
  have key : ∀ r : ℚ,
      ((st.update_timeout r).idle_timeout =
        if max 10 (min (r * (3 / 2)) st.idle_timeout) < st.idle_timeout
        then max 10 (min (r * (3 / 2)) st.idle_timeout) else st.idle_timeout)
    ∧ ((st.update_timeout r).iter_timeout =
        if max 10 (min (r * 2) st.iter_timeout) < st.iter_timeout
        then max 10 (min (r * 2) st.iter_timeout) else st.iter_timeout)
    ∧ ((st.update_timeout r).server_present =
        if max 10 (min (r * 2) st.iter_timeout) < st.iter_timeout
        then false else st.server_present) := by
    intro r
    unfold Interesting.update_timeout
    by_cases h1 : max 10 (min (r * (3 / 2)) st.idle_timeout) < st.idle_timeout <;>
      by_cases h2 : max 10 (min (r * 2) st.iter_timeout) < st.iter_timeout <;>
      simp [h1, h2]
  refine ⟨(key e).1, (key e).2.1, ?_, ?_, (key e).2.2, ?_⟩
  · rw [(key e).1]
    split
    · exact le_of_lt (by assumption)
    · exact le_refl _
  · rw [(key e).2.1]
    split
    · exact le_of_lt (by assumption)
    · exact le_refl _
  · intro h60
    rw [(key 5).1, h60]
    norm_num [min_def, max_def]

/-- Witness for C6 at a concrete state: elapsed 5 against idle timeout 60
shrinks the idle timeout to 10, and a shrinking iter timeout discards the
server. -/
theorem C6_update_timeout_witness :
    (Interesting.update_timeout
      ⟨0, none, 1, 1, false, true, [], none, false, false, 60, 60, true⟩ 5).idle_timeout
      = 10 :=
  (C6_update_timeout
      ⟨0, none, 1, 1, false, true, [], none, false, false, 60, 60, true⟩ 5).2.2.2.2.2 rfl

/-- C8: on every exit path of a single trial — normal return or an error
raised while serving, classifying, or checking relaunch — the
iteration-done signal is set and the monitor thread is joined, in that order,
as the final actions before `_run` returns; the body's outcome (value or
re-raised error) is preserved. -/
theorem C8_run_joins_monitor (serveR : Except TrialErr Bool)
    (classifyR : Bool → Except TrialErr Bool) (relaunchR : Except TrialErr Unit) :
    (runTrialEvents serveR classifyR relaunchR).1 = (tryBody serveR classifyR relaunchR).1
  ∧ (∃ p, (runTrialEvents serveR classifyR relaunchR).2 =
        p ++ [TrialEvent.done_event_set, TrialEvent.monitor_joined]
      ∧ TrialEvent.monitor_started ∈ p) := by
  refine ⟨rfl, ⟨(tryBody serveR classifyR relaunchR).2, rfl, ?_⟩⟩
  unfold tryBody
  cases serveR with
  | error e => simp
  | ok s =>
    cases hc : classifyR s with
    | error e => simp [hc]
    | ok r =>
      cases relaunchR with
      | error e => simp [hc]
      | ok u => simp [hc]

/-- C9: when the target is closed at the start of a trial, launch is attempted
at most 4 times with one fixed 15-second sleep after each failed attempt; a
successful attempt breaks the retry loop; exhausting all 4 attempts raises no
error — the loop completes with the target still unlaunched and the trial
proceeds. -/
theorem C9_launch_retry (attempts : Nat → Bool) :
    (relaunchIfClosed true attempts).attempts_made ≤ 4
  ∧ (∀ k, k < 4 → (∀ j, j < k → attempts j = false) → attempts k = true →
      relaunchIfClosed true attempts = ⟨k + 1, k, true⟩)
  ∧ ((∀ j, j < 4 → attempts j = false) →
      relaunchIfClosed true attempts = ⟨4, 4, false⟩) := by
  have hle : ∀ fuel i, (launchRetryLoop attempts fuel i).attempts_made ≤ fuel := by
    intro fuel
    induction fuel with
    | zero => intro i; simp [launchRetryLoop]
    | succ f ih =>
      intro i
      by_cases h : attempts i = true
      · simp [launchRetryLoop, h]
      · simp only [launchRetryLoop, Bool.not_eq_true] at h ⊢
        simp [h]
        exact ih (i + 1)
  have hsucc : ∀ fuel i k, k < fuel → (∀ j, j < k → attempts (i + j) = false) →
      attempts (i + k) = true → launchRetryLoop attempts fuel i = ⟨k + 1, k, true⟩ := by
    intro fuel
    induction fuel with
    | zero => intro i k hk _ _; exact absurd hk (Nat.not_lt_zero k)
    | succ f ih =>
      intro i k hk hprev hsucc
      cases k with
      | zero =>
        simp only [Nat.add_zero] at hsucc
        simp [launchRetryLoop, hsucc]
      | succ k' =>
        have h0 : attempts i = false := by
          have := hprev 0 (Nat.succ_pos k')
          simpa using this
        have hrec := ih (i + 1) k' (Nat.lt_of_succ_lt_succ hk)
          (fun j hj => by
            have := hprev (j + 1) (Nat.succ_lt_succ hj)
            simpa [Nat.add_assoc, Nat.add_comm 1 j] using this)
          (by
            have : i + 1 + k' = i + (k' + 1) := by omega
            rw [this]
            exact hsucc)
        simp [launchRetryLoop, h0, hrec]
  have hfail : ∀ fuel i, (∀ j, j < fuel → attempts (i + j) = false) →
      launchRetryLoop attempts fuel i = ⟨fuel, fuel, false⟩ := by
    intro fuel
    induction fuel with
    | zero => intro i _; rfl
    | succ f ih =>
      intro i hall
      have h0 : attempts i = false := by simpa using hall 0 (Nat.succ_pos f)
      have hrec := ih (i + 1) (fun j hj => by
        have := hall (j + 1) (Nat.succ_lt_succ hj)
        simpa [Nat.add_assoc, Nat.add_comm 1 j] using this)
      simp [launchRetryLoop, h0, hrec]
  refine ⟨?_, ?_, ?_⟩
  · simpa [relaunchIfClosed] using hle 4 0
  · intro k hk hprev hk'
    have := hsucc 4 0 k hk (fun j hj => by simpa using hprev j hj) (by simpa using hk')
    simpa [relaunchIfClosed] using this
  · intro hall
    have := hfail 4 0 (fun j hj => by simpa using hall j hj)
    simpa [relaunchIfClosed] using this

/-- Witness for C9: attempts failing twice then succeeding give three
attempts, two 15-second sleeps, and a launched target; four failures give
four attempts, four sleeps, and no error with the target still closed. -/
theorem C9_launch_retry_witness :
    relaunchIfClosed true (fun i => decide (i = 2)) = ⟨3, 2, true⟩ ∧
    relaunchIfClosed true (fun _ => false) = ⟨4, 4, false⟩ :=
  ⟨(C9_launch_retry (fun i => decide (i = 2))).2.1 2 (by decide)
      (by decide) (by decide),
   (C9_launch_retry (fun _ => false)).2.2 (fun j _ => rfl)⟩

theorem dlookup_dinsert_self (d : List (String × Option String)) (k : String)
    (v : Option String) : dlookup (dinsert d k v) k = some v := by
  unfold dinsert
  induction d with
  | nil => simp [dlookup]
  | cons hd tl ih =>
    obtain ⟨a, b⟩ := hd
    by_cases h : a = k
    · simpa [List.filter_cons, h] using ih
    · simpa [List.filter_cons, h, dlookup] using ih

theorem dlookup_dinsert_other (d : List (String × Option String)) (k k' : String)
    (v : Option String) (h : k' ≠ k) : dlookup (dinsert d k' v) k = dlookup d k := by
  unfold dinsert
  induction d with
  | nil => simp [dlookup, h]
  | cons hd tl ih =>
    obtain ⟨a, b⟩ := hd
    have hc : ¬ k = k' := fun e => h e.symm
    by_cases h1 : a = k'
    · simpa [List.filter_cons, h1, dlookup, h] using ih
    · by_cases h2 : a = k
      · simp [List.filter_cons, h1, dlookup, h2, hc]
      · simpa [List.filter_cons, h1, dlookup, h2] using ih

/-- C10: for every `PuppetTarget.launch` call that reaches the puppet (a
prefs.js file is configured), whatever `env_mod` the caller supplies, the
environment handed to the puppet process maps
`MOZ_DISABLE_NONLOCAL_CONNECTIONS` and `MOZ_CRASHREPORTER_SHUTDOWN` to "1",
overwriting any caller-supplied values for those keys. -/
theorem C10_launch_env (prefs : Option String)
    (env_mod : Option (List (String × Option String))) (p : String)
    (hp : prefs = some p) :
    ∃ env, PuppetTarget.launch prefs env_mod = .ok env
      ∧ dlookup env "MOZ_DISABLE_NONLOCAL_CONNECTIONS" = some (some "1")
      ∧ dlookup env "MOZ_CRASHREPORTER_SHUTDOWN" = some (some "1") := by
  subst hp
  refine ⟨_, rfl, ?_, ?_⟩
  · rw [dlookup_dinsert_other _ _ _ _ (by decide)]
    exact dlookup_dinsert_self _ _ _
  · exact dlookup_dinsert_self _ _ _

/-- Witness for C10: a caller-supplied value "0" for
`MOZ_DISABLE_NONLOCAL_CONNECTIONS` is overwritten with "1". -/
theorem C10_launch_env_witness :
    ∃ env, PuppetTarget.launch (some "prefs.js")
        (some [("MOZ_DISABLE_NONLOCAL_CONNECTIONS", some "0")]) = .ok env
      ∧ dlookup env "MOZ_DISABLE_NONLOCAL_CONNECTIONS" = some (some "1")
      ∧ dlookup env "MOZ_CRASHREPORTER_SHUTDOWN" = some (some "1") :=
  C10_launch_env (some "prefs.js") (some [("MOZ_DISABLE_NONLOCAL_CONNECTIONS", some "0")])
    "prefs.js" rfl

theorem update_timeout_preserves (st : Interesting) (e : ℚ) :
    (st.update_timeout e).orig_sig = st.orig_sig
  ∧ (st.update_timeout e).any_crash = st.any_crash
  ∧ (st.update_timeout e).alt_crash_cb_present = st.alt_crash_cb_present := by
  unfold Interesting.update_timeout
  by_cases h1 : max 10 (min (e * (3 / 2)) st.idle_timeout) < st.idle_timeout <;>
    by_cases h2 : max 10 (min (e * 2) st.iter_timeout) < st.iter_timeout <;>
    simp [h1, h2]

/-- C2 counterexample: with `any_crash` set, a pre-supplied reference
signature, and a crash report (signature "SIGSEGV") that does not match it,
the trial does NOT count as interesting — the alt-crash callback fires
instead — although the claim says every crash counts when anyCrash is set. -/
theorem C2_crash_counting_counterexample :
    (classifyFailure (fun _ _ => false) (fun c => ⟨c.crash_id⟩)
        ⟨0, none, 1, 1, true, false, [], some ⟨7⟩, false, true, 60, 60, true⟩
        ⟨"SIGSEGV", 1⟩ 3).result = false
  ∧ (⟨0, none, 1, 1, true, false, [], some ⟨7⟩, false, true, 60, 60, true⟩
        : Interesting).any_crash = true
  ∧ (⟨"SIGSEGV", 1⟩ : CrashReport).short_sig ≠ "No crash detected"
  ∧ (classifyFailure (fun _ _ => false) (fun c => ⟨c.crash_id⟩)
        ⟨0, none, 1, 1, true, false, [], some ⟨7⟩, false, true, 60, 60, true⟩
        ⟨"SIGSEGV", 1⟩ 3).alt_cb_invoked = true := by
  refine ⟨?_, rfl, by decide, ?_⟩ <;> rfl

/-- C2 (amended): for a Failure trial, a report yielding no crash signature is
uninteresting; otherwise the trial counts exactly when no reference signature
exists or the report matches it — `any_crash` does not bypass an existing
reference signature, it only prevents adopting the first crash's 5-frame
fingerprint as the reference; a non-matching crash invokes the alt-crash
callback (when set) and does not count. -/
theorem C2_crash_counting (sigMatch : Sig → CrashReport → Bool)
    (mkSig5 : CrashReport → Sig) (st : Interesting) (crash : CrashReport) (elapsed : ℚ) :
    (crash.short_sig = "No crash detected" →
      classifyFailure sigMatch mkSig5 st crash elapsed = ⟨false, st, false⟩)
  ∧ (crash.short_sig ≠ "No crash detected" →
      ((classifyFailure sigMatch mkSig5 st crash elapsed).result = true ↔
        st.orig_sig = none ∨ ∃ s, st.orig_sig = some s ∧ sigMatch s crash = true))
  ∧ (crash.short_sig ≠ "No crash detected" → st.orig_sig = none →
      (classifyFailure sigMatch mkSig5 st crash elapsed).state.orig_sig =
        (if st.any_crash then none else some (mkSig5 crash)))
  ∧ (∀ s, st.orig_sig = some s →
      (classifyFailure sigMatch mkSig5 st crash elapsed).state.orig_sig = some s)
  ∧ (crash.short_sig ≠ "No crash detected" →
      ((classifyFailure sigMatch mkSig5 st crash elapsed).alt_cb_invoked = true ↔
        (∃ s, st.orig_sig = some s ∧ sigMatch s crash = false) ∧
          st.alt_crash_cb_present = true)) := by
  by_cases hsig : crash.short_sig = "No crash detected"
  · refine ⟨fun _ => by simp [classifyFailure, hsig], ?_, ?_, ?_, ?_⟩
    · intro h; exact absurd hsig h
    · intro h; exact absurd hsig h
    · intro s hs; simp [classifyFailure, hsig, hs]
    · intro h; exact absurd hsig h
  · cases hos : st.orig_sig with
    | none =>
      refine ⟨fun h => absurd h hsig, ?_, ?_, ?_, ?_⟩
      · intro _
        simp [classifyFailure, hsig, hos]
      · intro _ _
        by_cases hac : st.any_crash <;>
          simp [classifyFailure, hsig, hos, hac, (update_timeout_preserves _ elapsed).1]
      · intro s hs; exact absurd hs (by simp)
      · intro _
        simp [classifyFailure, hsig, hos]
    | some s0 =>
      by_cases hm : sigMatch s0 crash = true
      · refine ⟨fun h => absurd h hsig, ?_, ?_, ?_, ?_⟩
        · intro _
          simp only [classifyFailure, hsig, hos, hm, if_neg hsig, if_pos hm]
          simp [hos, hm]
        · intro _ h; exact absurd h (by simp)
        · intro s hs
          injection hs with hs0
          subst hs0
          simp [classifyFailure, hsig, hos, hm, (update_timeout_preserves _ elapsed).1]
        · intro _
          simp only [classifyFailure]
          rw [if_neg hsig]
          simp [hos, hm]
      · have hm' : sigMatch s0 crash = false := by
          cases hv : sigMatch s0 crash
          · rfl
          · exact absurd hv hm
        refine ⟨fun h => absurd h hsig, ?_, ?_, ?_, ?_⟩
        · intro _
          simp [classifyFailure, hsig, hos, hm']
        · intro _ h; exact absurd h (by simp)
        · intro s hs
          injection hs with hs0
          subst hs0
          simp [classifyFailure, hsig, hos, hm']
        · intro _
          simp [classifyFailure, hsig, hos, hm']

/-- Witness for C2 (amended): a report with no crash signature is
uninteresting, and a first crash (no reference signature, anyCrash off)
counts and adopts the 5-frame fingerprint. -/
theorem C2_crash_counting_witness :
    classifyFailure (fun _ _ => true) (fun c => ⟨c.crash_id⟩)
        ⟨0, none, 1, 1, false, false, [], none, false, false, 60, 60, true⟩
        ⟨"No crash detected", 0⟩ 3 =
      ⟨false, ⟨0, none, 1, 1, false, false, [], none, false, false, 60, 60, true⟩, false⟩
  ∧ (classifyFailure (fun _ _ => true) (fun c => ⟨c.crash_id⟩)
        ⟨0, none, 1, 1, false, false, [], none, false, false, 60, 60, true⟩
        ⟨"SIGSEGV", 5⟩ 3).state.orig_sig = some ⟨5⟩ :=
  ⟨(C2_crash_counting (fun _ _ => true) (fun c => ⟨c.crash_id⟩)
      ⟨0, none, 1, 1, false, false, [], none, false, false, 60, 60, true⟩
      ⟨"No crash detected", 0⟩ 3).1 rfl,
   by
    have h := (C2_crash_counting (fun _ _ => true) (fun c => ⟨c.crash_id⟩)
      ⟨0, none, 1, 1, false, false, [], none, false, false, 60, 60, true⟩
      ⟨"SIGSEGV", 5⟩ 3).2.2.1 (by decide) rfl
    simpa using h⟩

/-- C7 counterexample: threshold 10, one poll window whose first observation
is fully idle but with the target no longer running, and whose second
observation is at 50% CPU.  The target stopping makes `poll_for_idle` break
out and report idle, so the monitor raises the idle signal — although the
window was not completed, not all of its samples are below the threshold,
and the target had stopped running, all contrary to the claim. -/
theorem C7_idle_monitor_counterexample :
    Interesting.monitor_process 10 [(false, [⟨[0], false⟩, ⟨[50], true⟩])] = true
  ∧ PuppetTarget.poll_for_idle 10 [⟨[0], false⟩, ⟨[50], true⟩] = .idle
  ∧ (⟨[0], false⟩ : IdleObs).running = false
  ∧ ¬ (∀ o ∈ [(⟨[0], false⟩ : IdleObs), ⟨[50], true⟩], belowAll 10 o = true) := by
  refine ⟨by decide, by decide, rfl, ?_⟩
  intro hall
  have := hall ⟨[50], true⟩ (by simp)
  revert this
  decide

/-- C7 (amended): the monitor exits without raising the idle signal when the
external stop signal is observed at a round's check; it raises the idle
signal exactly when a reached poll returns idle, and a poll returns idle
exactly when its scan meets no at-or-above-threshold sample before it stops —
either by the full window elapsing or by the target no longer running. -/
theorem C7_idle_monitor (t : ℚ) (rounds : List (Bool × List IdleObs)) :
    (∀ w rest, rounds = (true, w) :: rest → Interesting.monitor_process t rounds = false)
  ∧ (∀ w : List IdleObs, PuppetTarget.poll_for_idle t w = .idle ↔
      (∀ o, (w.dropWhile fun o => belowAll t o && o.running).head? = some o →
        belowAll t o = true))
  ∧ (Interesting.monitor_process t rounds = true ↔
      ∃ rnd, (rounds.dropWhile fun r =>
          !r.1 && decide (PuppetTarget.poll_for_idle t r.2 = .busy)).head? = some rnd
        ∧ rnd.1 = false ∧ PuppetTarget.poll_for_idle t rnd.2 = .idle) := by
  have hpoll : ∀ w : List IdleObs, PuppetTarget.poll_for_idle t w = .idle ↔
      (∀ o, (w.dropWhile fun o => belowAll t o && o.running).head? = some o →
        belowAll t o = true) := by
    intro w
    induction w with
    | nil => simp [PuppetTarget.poll_for_idle]
    | cons o rest ih =>
      by_cases hb : belowAll t o = true
      · by_cases hr : o.running = true
        · simpa [PuppetTarget.poll_for_idle, hb, hr, List.dropWhile_cons] using ih
        · have hr' : o.running = false := by
            cases hv : o.running
            · rfl
            · exact absurd hv hr
          simp [PuppetTarget.poll_for_idle, hb, hr', List.dropWhile_cons]
      · have hb' : belowAll t o = false := by
          cases hv : belowAll t o
          · rfl
          · exact absurd hv hb
        simp [PuppetTarget.poll_for_idle, hb', List.dropWhile_cons]
  refine ⟨?_, hpoll, ?_⟩
  · intro w rest hr
    subst hr
    simp [Interesting.monitor_process]
  · induction rounds with
    | nil => simp [Interesting.monitor_process]
    | cons rnd rest ih =>
      obtain ⟨done, w⟩ := rnd
      cases done with
      | true =>
        simp [Interesting.monitor_process, List.dropWhile_cons]
      | false =>
        cases hp : PuppetTarget.poll_for_idle t w with
        | idle =>
          simp [Interesting.monitor_process, hp, List.dropWhile_cons]
        | busy =>
          simpa [Interesting.monitor_process, hp, List.dropWhile_cons] using ih

/-- Witness for C7 (amended): a monitor round that observes the stop signal
exits without raising the idle signal. -/
theorem C7_idle_monitor_witness :
    Interesting.monitor_process 10 [(true, [⟨[0], true⟩])] = false :=
  (C7_idle_monitor 10 [(true, [⟨[0], true⟩])]).1 [⟨[0], true⟩] [] rfl

theorem cacheLookup_insert_self (cache : List (String × CacheEntry)) (k : String)
    (v : CacheEntry) : cacheLookup (cacheInsert cache k v) k = some v := by
  simp [cacheLookup, cacheInsert]

theorem runLoop_count_le (minC : Nat) (runs : Nat → Bool) (nTries : Nat) :
    ∀ fuel i c, (runLoop minC runs nTries fuel i c).2 ≤ fuel := by
  intro fuel
  induction fuel with
  | zero => intro i c; simp [runLoop]
  | succ f ih =>
    intro i c
    by_cases hstop : (nTries : ℤ) - (i : ℤ) < (minC : ℤ) - (c : ℤ)
    · simp [runLoop, hstop]
    · by_cases hr : runs i = true
      · by_cases hm : minC ≤ c + 1
        · simp [runLoop, hstop, hr, hm]
        · simpa [runLoop, hstop, hr, hm, Nat.succ_le_succ_iff] using ih (i + 1) (c + 1)
      · have hr' : runs i = false := by
          cases hv : runs i
          · rfl
          · exact absurd hv hr
        simpa [runLoop, hstop, hr', Nat.succ_le_succ_iff] using ih (i + 1) c

theorem runLoop_early_stop (minC : Nat) (runs : Nat → Bool) (nTries : Nat)
    (fuel i c : Nat) (h : (nTries : ℤ) - (i : ℤ) < (minC : ℤ) - (c : ℤ)) :
    runLoop minC runs nTries fuel i c = (false, 0) := by
  cases fuel with
  | zero => rfl
  | succ f => simp [runLoop, h]

theorem runLoop_true_spec (minC : Nat) (runs : Nat → Bool) (nTries : Nat) :
    ∀ fuel i c, c < minC → (runLoop minC runs nTries fuel i c).1 = true →
      c + crashesIn runs i (runLoop minC runs nTries fuel i c).2 = minC
      ∧ 0 < (runLoop minC runs nTries fuel i c).2
      ∧ runs (i + (runLoop minC runs nTries fuel i c).2 - 1) = true := by
  intro fuel
  induction fuel with
  | zero => intro i c _ htrue; simp [runLoop] at htrue
  | succ f ih =>
    intro i c hc htrue
    by_cases hstop : (nTries : ℤ) - (i : ℤ) < (minC : ℤ) - (c : ℤ)
    · rw [runLoop_early_stop minC runs nTries _ _ _ hstop] at htrue
      simp at htrue
    · by_cases hr : runs i = true
      · by_cases hm : minC ≤ c + 1
        · have hout : runLoop minC runs nTries (f + 1) i c = (true, 1) := by
            simp [runLoop, hstop, hr, hm]
          rw [hout]
          have hceq : c + 1 = minC := Nat.le_antisymm hc hm
          simp [crashesIn, hr, hceq]
        · have hout : runLoop minC runs nTries (f + 1) i c =
              ((runLoop minC runs nTries f (i + 1) (c + 1)).1,
               (runLoop minC runs nTries f (i + 1) (c + 1)).2 + 1) := by
            simp [runLoop, hstop, hr, hm]
          rw [hout] at htrue ⊢
          simp only at htrue
          have hc1 : c + 1 < minC := by omega
          obtain ⟨hsum, hpos, hlast⟩ := ih (i + 1) (c + 1) hc1 htrue
          have hx : crashesIn runs i ((runLoop minC runs nTries f (i + 1) (c + 1)).2 + 1)
              = 1 + crashesIn runs (i + 1) (runLoop minC runs nTries f (i + 1) (c + 1)).2 := by
            simp [crashesIn, hr]
          refine ⟨?_, Nat.succ_pos _, ?_⟩
          · simp only [hx]
            omega
          · have hidx : i + ((runLoop minC runs nTries f (i + 1) (c + 1)).2 + 1) - 1 =
                i + 1 + (runLoop minC runs nTries f (i + 1) (c + 1)).2 - 1 := by omega
            rw [hidx]
            exact hlast
      · have hr' : runs i = false := by
          cases hv : runs i
          · rfl
          · exact absurd hv hr
        have hout : runLoop minC runs nTries (f + 1) i c =
            ((runLoop minC runs nTries f (i + 1) c).1,
             (runLoop minC runs nTries f (i + 1) c).2 + 1) := by
          simp [runLoop, hstop, hr']
        rw [hout] at htrue ⊢
        simp only at htrue
        obtain ⟨hsum, hpos, hlast⟩ := ih (i + 1) c hc htrue
        have hx : crashesIn runs i ((runLoop minC runs nTries f (i + 1) c).2 + 1)
            = crashesIn runs (i + 1) (runLoop minC runs nTries f (i + 1) c).2 := by
          simp [crashesIn, hr']
        refine ⟨?_, Nat.succ_pos _, ?_⟩
        · simp only [hx]
          omega
        · have hidx : i + ((runLoop minC runs nTries f (i + 1) c).2 + 1) - 1 =
              i + 1 + (runLoop minC runs nTries f (i + 1) c).2 - 1 := by omega
          rw [hidx]
          exact hlast

theorem runLoop_false_spec (minC : Nat) (runs : Nat → Bool) (nTries : Nat) :
    ∀ fuel i c, c < minC → (runLoop minC runs nTries fuel i c).1 = false →
      c + crashesIn runs i (runLoop minC runs nTries fuel i c).2 < minC := by
  intro fuel
  induction fuel with
  | zero => intro i c hc _; simpa [runLoop, crashesIn] using hc
  | succ f ih =>
    intro i c hc hfalse
    by_cases hstop : (nTries : ℤ) - (i : ℤ) < (minC : ℤ) - (c : ℤ)
    · rw [runLoop_early_stop minC runs nTries _ _ _ hstop]
      simpa [crashesIn] using hc
    · by_cases hr : runs i = true
      · by_cases hm : minC ≤ c + 1
        · have hout : runLoop minC runs nTries (f + 1) i c = (true, 1) := by
            simp [runLoop, hstop, hr, hm]
          rw [hout] at hfalse
          simp at hfalse
        · have hout : runLoop minC runs nTries (f + 1) i c =
              ((runLoop minC runs nTries f (i + 1) (c + 1)).1,
               (runLoop minC runs nTries f (i + 1) (c + 1)).2 + 1) := by
            simp [runLoop, hstop, hr, hm]
          rw [hout] at hfalse ⊢
          simp only at hfalse
          have hc1 : c + 1 < minC := by omega
          have hsum := ih (i + 1) (c + 1) hc1 hfalse
          have hx : crashesIn runs i ((runLoop minC runs nTries f (i + 1) (c + 1)).2 + 1)
              = 1 + crashesIn runs (i + 1) (runLoop minC runs nTries f (i + 1) (c + 1)).2 := by
            simp [crashesIn, hr]
          simp only [hx]
          omega
      · have hr' : runs i = false := by
          cases hv : runs i
          · rfl
          · exact absurd hv hr
        have hout : runLoop minC runs nTries (f + 1) i c =
            ((runLoop minC runs nTries f (i + 1) c).1,
             (runLoop minC runs nTries f (i + 1) c).2 + 1) := by
          simp [runLoop, hstop, hr']
        rw [hout] at hfalse ⊢
        simp only at hfalse
        have hsum := ih (i + 1) c hc hfalse
        have hx : crashesIn runs i ((runLoop minC runs nTries f (i + 1) c).2 + 1)
            = crashesIn runs (i + 1) (runLoop minC runs nTries f (i + 1) c).2 := by
          simp [crashesIn, hr']
        simp only [hx]
        omega

theorem evalCore_miss_spec (st : Interesting) (k p : String) (fs : List FsEntry)
    (runs : Nat → Bool) (hc : st.use_result_cache = true)
    (hmiss : cacheLookup st.result_cache k = none) (hmc : 0 < st.min_crashes) :
    ∃ out, evalCore st k p fs runs = .ok out
      ∧ out.runs_count ≤ max st.repeat_n st.min_crashes
      ∧ (out.result = true →
          crashesIn runs 0 out.runs_count = st.min_crashes
          ∧ 0 < out.runs_count ∧ runs (out.runs_count - 1) = true
          ∧ out.cb_invoked = st.interesting_cb_present
          ∧ cacheLookup out.state.result_cache k = some ⟨true, p⟩)
      ∧ (out.result = false →
          crashesIn runs 0 out.runs_count < st.min_crashes
          ∧ out.cb_invoked = false
          ∧ cacheLookup out.state.result_cache k = some ⟨false, p⟩) := by
  have hred : evalCore st k p fs runs =
      (if (runLoop st.min_crashes runs (max st.repeat_n st.min_crashes)
            (max st.repeat_n st.min_crashes) 0 0).1 then
        Except.ok ⟨true,
          { st with result_cache := cacheInsert st.result_cache k ⟨true, p⟩ },
          (runLoop st.min_crashes runs (max st.repeat_n st.min_crashes)
            (max st.repeat_n st.min_crashes) 0 0).2, [], st.interesting_cb_present⟩
      else
        Except.ok ⟨false,
          { st with result_cache := cacheInsert st.result_cache k ⟨false, p⟩ },
          (runLoop st.min_crashes runs (max st.repeat_n st.min_crashes)
            (max st.repeat_n st.min_crashes) 0 0).2, [], false⟩) := by
    simp [evalCore, hc, hmiss]
  cases hr1 : (runLoop st.min_crashes runs (max st.repeat_n st.min_crashes)
      (max st.repeat_n st.min_crashes) 0 0).1 with
  | true =>
    rw [hr1] at hred
    simp only [if_true] at hred
    refine ⟨_, hred, ?_, ?_, ?_⟩
    · exact runLoop_count_le st.min_crashes runs _ _ 0 0
    · intro _
      obtain ⟨hsum, hpos, hlast⟩ :=
        runLoop_true_spec st.min_crashes runs (max st.repeat_n st.min_crashes)
          (max st.repeat_n st.min_crashes) 0 0 hmc hr1
      refine ⟨by simpa using hsum, hpos, by simpa using hlast, rfl, ?_⟩
      exact cacheLookup_insert_self st.result_cache k ⟨true, p⟩
    · intro hff
      simp at hff
  | false =>
    rw [hr1] at hred
    simp only [if_false, Bool.false_eq_true] at hred
    refine ⟨_, hred, ?_, ?_, ?_⟩
    · exact runLoop_count_le st.min_crashes runs _ _ 0 0
    · intro hff
      simp at hff
    · intro _
      have hlt := runLoop_false_spec st.min_crashes runs (max st.repeat_n st.min_crashes)
        (max st.repeat_n st.min_crashes) 0 0 hmc hr1
      refine ⟨by simpa using hlt, rfl, ?_⟩
      exact cacheLookup_insert_self st.result_cache k ⟨false, p⟩

/-- C1: an `interesting` call that reaches the trial loop on a cache miss runs
at most `max(repeat, min_crashes)` trials; before each trial, if the trials
remaining (including the current one) are fewer than `min_crashes` minus the
crashes counted so far, the loop stops early with no further runs; a true
verdict means exactly `min_crashes` of the executed trials crashed, the last
executed trial being the one that reached the target, the
interesting-callback firing (when set) and verdict true being cached under
the candidate's content hash; exhausting the trials without reaching
`min_crashes` caches and returns verdict false. -/
theorem C1_trial_loop (st : Interesting) (cacheKey tmpPfx : String) (fs : List FsEntry)
    (runs : Nat → Bool) (hskip : skipsNow st = false) (hc : st.use_result_cache = true)
    (hmiss : cacheLookup st.result_cache cacheKey = none) (hmc : 0 < st.min_crashes) :
    (∀ (fuel i c : Nat), ((max st.repeat_n st.min_crashes : Nat) : ℤ) - (i : ℤ) <
          (st.min_crashes : ℤ) - (c : ℤ) →
        runLoop st.min_crashes runs (max st.repeat_n st.min_crashes) fuel i c = (false, 0))
  ∧ ∃ out, Interesting.interesting st cacheKey tmpPfx fs runs = .ok out
      ∧ out.runs_count ≤ max st.repeat_n st.min_crashes
      ∧ (out.result = true →
          crashesIn runs 0 out.runs_count = st.min_crashes
          ∧ 0 < out.runs_count ∧ runs (out.runs_count - 1) = true
          ∧ out.cb_invoked = st.interesting_cb_present
          ∧ cacheLookup out.state.result_cache cacheKey = some ⟨true, tmpPfx⟩)
      ∧ (out.result = false →
          crashesIn runs 0 out.runs_count < st.min_crashes
          ∧ out.cb_invoked = false
          ∧ cacheLookup out.state.result_cache cacheKey = some ⟨false, tmpPfx⟩) := by
  obtain ⟨f1, f2, f3, f4, f5⟩ := stSkip_fields st
  obtain ⟨out, hout, hle, htrue, hfalse⟩ :=
    evalCore_miss_spec (stSkip st) cacheKey tmpPfx fs runs
      (by rw [f3]; exact hc) (by rw [f4]; exact hmiss) (by rw [f1]; exact hmc)
  refine ⟨?_, out, ?_, ?_, ?_, ?_⟩
  · intro fuel i c h
    exact runLoop_early_stop st.min_crashes runs _ fuel i c h
  · rw [interesting_eq_evalCore st cacheKey tmpPfx fs runs hskip]
    exact hout
  · rw [f1, f2] at hle
    exact hle
  · rw [f1, f5] at htrue
    exact htrue
  · rw [f1] at hfalse
    exact hfalse

/-- Witness for C1 at a concrete configuration: skip off, min_crashes 2,
repeat 3, empty cache, trials crashing at indices 0 and 2. -/
theorem C1_trial_loop_witness :
    skipsNow ⟨0, none, 2, 3, false, true, [], none, true, false, 60, 60, true⟩ = false
  ∧ ((∀ (fuel i c : Nat), ((max 3 2 : Nat) : ℤ) - (i : ℤ) < ((2 : Nat) : ℤ) - (c : ℤ) →
        runLoop 2 (fun i => decide (i ≠ 1)) (max 3 2) fuel i c = (false, 0))
  ∧ ∃ out, Interesting.interesting
        ⟨0, none, 2, 3, false, true, [], none, true, false, 60, 60, true⟩
        "k" "p" [] (fun i => decide (i ≠ 1)) = .ok out
      ∧ out.runs_count ≤ max 3 2
      ∧ (out.result = true →
          crashesIn (fun i => decide (i ≠ 1)) 0 out.runs_count = 2
          ∧ 0 < out.runs_count ∧ decide (out.runs_count - 1 ≠ 1) = true
          ∧ out.cb_invoked = true
          ∧ cacheLookup out.state.result_cache "k" = some ⟨true, "p"⟩)
      ∧ (out.result = false →
          crashesIn (fun i => decide (i ≠ 1)) 0 out.runs_count < 2
          ∧ out.cb_invoked = false
          ∧ cacheLookup out.state.result_cache "k" = some ⟨false, "p"⟩)) :=
  ⟨by decide,
   C1_trial_loop ⟨0, none, 2, 3, false, true, [], none, true, false, 60, 60, true⟩
     "k" "p" [] (fun i => decide (i ≠ 1)) (by decide) rfl rfl (by decide)⟩

theorem string_data_append (a b : String) : (a ++ b).data = a.data ++ b.data := by
  cases a
  cases b
  rfl

theorem startsList_append (p : List Char) :
    ∀ s, startsList p s = true → ∃ t, s = p ++ t := by
  induction p with
  | nil => intro s _; exact ⟨s, rfl⟩
  | cons c p' ih =>
    intro s hs
    cases s with
    | nil => simp [startsList] at hs
    | cons d s' =>
      simp only [startsList, Bool.and_eq_true, decide_eq_true_eq] at hs
      obtain ⟨t, ht⟩ := ih s' hs.2
      exact ⟨t, by simp [hs.1, ht]⟩

theorem afterAux_append (s : List Char) :
    ∀ p, ¬ '_' ∈ p → afterUnderscoreAux (p ++ '_' :: s) = some s := by
  intro p
  induction p with
  | nil => intro _; simp [afterUnderscoreAux]
  | cons c p' ih =>
    intro hnm
    have hc : ¬ c = '_' := fun hc => hnm (by simp [hc])
    have hp' : ¬ '_' ∈ p' := fun hm => hnm (List.mem_cons_of_mem c hm)
    simp [afterUnderscoreAux, hc, ih hp']

theorem afterAux_some_of_mem : ∀ l : List Char, '_' ∈ l →
    ∃ r, afterUnderscoreAux l = some r := by
  intro l
  induction l with
  | nil => intro h; simp at h
  | cons c rest ih =>
    intro h
    by_cases hc : c = '_'
    · exact ⟨rest, by simp [afterUnderscoreAux, hc]⟩
    · have hm : '_' ∈ rest := by
        rcases List.mem_cons.mp h with h1 | h1
        · exact absurd h1.symm hc
        · exact h1
      obtain ⟨r, hr⟩ := ih hm
      exact ⟨r, by simp [afterUnderscoreAux, hc, hr]⟩

theorem globMatches_underscore (fs : List FsEntry) (pfx : String) :
    ∀ e ∈ globMatches fs pfx, ∃ r, afterUnderscoreAux e.name.data = some r := by
  intro e he
  have hst : startsList (pfx ++ "_").data e.name.data = true :=
    (List.mem_filter.mp
      (show e ∈ fs.filter (fun x => startsList (pfx ++ "_").data x.name.data) from he)).2
  obtain ⟨t, ht⟩ := startsList_append (pfx ++ "_").data e.name.data hst
  have hmem : '_' ∈ e.name.data := by
    rw [ht]
    refine List.mem_append_left t ?_
    rw [string_data_append]
    exact List.mem_append_right _ (by simp [String.data])
  exact afterAux_some_of_mem e.name.data hmem

theorem replayCache_ok (tmp : String) :
    ∀ l : List FsEntry, (∀ e ∈ l, e.kind ≠ .other) →
      (∀ e ∈ l, ∃ r, afterUnderscoreAux e.name.data = some r) →
      replayCache tmp l = .ok
        (l.map fun e => (e.name, tmp ++ "_" ++ ((afterUnderscore e.name).getD ""), e.kind)) := by
  intro l
  induction l with
  | nil => intro _ _; rfl
  | cons e rest ih =>
    intro hk ha
    obtain ⟨r, hr⟩ := ha e (List.mem_cons_self e rest)
    have hu : afterUnderscore e.name = some (String.mk r) := by
      simp [afterUnderscore, hr]
    have hrec := ih (fun x hx => hk x (List.mem_cons_of_mem e hx))
      (fun x hx => ha x (List.mem_cons_of_mem e hx))
    have hke := hk e (List.mem_cons_self e rest)
    cases hkv : e.kind with
    | other => exact absurd hkv hke
    | file => simp [replayCache, hkv, hu, hrec, Except.map]
    | dir => simp [replayCache, hkv, hu, hrec, Except.map]

theorem replayCache_error (tmp : String) :
    ∀ l : List FsEntry, (∀ e ∈ l, ∃ r, afterUnderscoreAux e.name.data = some r) →
      (∃ e ∈ l, e.kind = .other) → ∃ msg, replayCache tmp l = .error msg := by
  intro l
  induction l with
  | nil => intro _ h; simp at h
  | cons e rest ih =>
    intro ha hex
    cases hkv : e.kind with
    | other =>
      exact ⟨"Cannot copy non-file/non-directory: " ++ e.name, by simp [replayCache, hkv]⟩
    | file =>
      obtain ⟨r, hr⟩ := ha e (List.mem_cons_self e rest)
      have hu : afterUnderscore e.name = some (String.mk r) := by
        simp [afterUnderscore, hr]
      have hex' : ∃ x ∈ rest, x.kind = .other := by
        rcases hex with ⟨x, hx, hxo⟩
        rcases List.mem_cons.mp hx with h1 | h1
        · rw [h1] at hxo; rw [hxo] at hkv; simp at hkv
        · exact ⟨x, h1, hxo⟩
      obtain ⟨msg, hmsg⟩ := ih (fun x hx => ha x (List.mem_cons_of_mem e hx)) hex'
      exact ⟨msg, by simp [replayCache, hkv, hu, hmsg, Except.map]⟩
    | dir =>
      obtain ⟨r, hr⟩ := ha e (List.mem_cons_self e rest)
      have hu : afterUnderscore e.name = some (String.mk r) := by
        simp [afterUnderscore, hr]
      have hex' : ∃ x ∈ rest, x.kind = .other := by
        rcases hex with ⟨x, hx, hxo⟩
        rcases List.mem_cons.mp hx with h1 | h1
        · rw [h1] at hxo; rw [hxo] at hkv; simp at hkv
        · exact ⟨x, h1, hxo⟩
      obtain ⟨msg, hmsg⟩ := ih (fun x hx => ha x (List.mem_cons_of_mem e hx)) hex'
      exact ⟨msg, by simp [replayCache, hkv, hu, hmsg, Except.map]⟩

theorem evalCore_hit_spec (st : Interesting) (k p : String) (fs : List FsEntry)
    (runs : Nat → Bool) (entry : CacheEntry) (hc : st.use_result_cache = true)
    (hhit : cacheLookup st.result_cache k = some entry) :
    (entry.result = false → evalCore st k p fs runs = .ok ⟨false, st, 0, [], false⟩)
  ∧ ((entry.result = true ∧ ∀ e ∈ globMatches fs entry.pfx, e.kind ≠ .other) →
      evalCore st k p fs runs = .ok ⟨true, st, 0,
        (globMatches fs entry.pfx).map
          (fun e => (e.name, p ++ "_" ++ ((afterUnderscore e.name).getD ""), e.kind)),
        false⟩)
  ∧ ((entry.result = true ∧ ∃ e ∈ globMatches fs entry.pfx, e.kind = .other) →
      ∃ msg, evalCore st k p fs runs = .error msg) := by
  refine ⟨?_, ?_, ?_⟩
  · intro hf
    simp [evalCore, hc, hhit, hf]
  · intro ⟨ht, hnone⟩
    have hrep := replayCache_ok p (globMatches fs entry.pfx) hnone
      (globMatches_underscore fs entry.pfx)
    simp [evalCore, hc, hhit, ht, hrep]
  · intro ⟨ht, hsome⟩
    obtain ⟨msg, hmsg⟩ := replayCache_error p (globMatches fs entry.pfx)
      (globMatches_underscore fs entry.pfx) hsome
    exact ⟨msg, by simp [evalCore, hc, hhit, ht, hmsg]⟩

/-- C4 counterexample: a cached-true hit whose cached prefix "a_b" itself
contains an underscore.  The entry "a_b_c" matches the glob `a_b_*` with
suffix "c", but the replay computes the destination suffix from the
basename's first underscore, copying to "p_b_c" instead of the
claim's "p_c". -/
theorem C4_cache_replay_counterexample :
    evalCopies (Interesting.interesting
        ⟨0, none, 1, 1, false, true, [("K", ⟨true, "a_b"⟩)], none, false, false, 60, 60, true⟩
        "K" "p" [⟨"a_b_c", .dir⟩] (fun _ => false)) =
      some [("a_b_c", "p_b_c", EntryKind.dir)]
  ∧ "a_b_c" = "a_b" ++ "_" ++ "c"
  ∧ "p_b_c" ≠ "p" ++ "_" ++ "c"
  ∧ evalResult (Interesting.interesting
        ⟨0, none, 1, 1, false, true, [("K", ⟨true, "a_b"⟩)], none, false, false, 60, 60, true⟩
        "K" "p" [⟨"a_b_c", .dir⟩] (fun _ => false)) = some true
  ∧ evalRuns (Interesting.interesting
        ⟨0, none, 1, 1, false, true, [("K", ⟨true, "a_b"⟩)], none, false, false, 60, 60, true⟩
        "K" "p" [⟨"a_b_c", .dir⟩] (fun _ => false)) = some 0 := by
  refine ⟨?_, by decide, by decide, ?_, ?_⟩ <;> rfl

/-- C4 (amended): a call whose candidate content hash is already cached
returns the cached verdict with zero trials; on a cached-true hit every
filesystem entry matching `<cachedPfx>_*` is copied, preserving
file-vs-directory kind, to the new prefix joined by `_` with the portion of
the entry's basename after its FIRST underscore — which equals the matched
suffix whenever the cached prefix contains no underscore — and an entry that
is neither a file nor a directory makes the call fail with an error. -/
theorem C4_cache_hit (st : Interesting) (cacheKey tmpPfx : String) (fs : List FsEntry)
    (runs : Nat → Bool) (entry : CacheEntry) (hskip : skipsNow st = false)
    (hc : st.use_result_cache = true)
    (hhit : cacheLookup st.result_cache cacheKey = some entry) :
    (entry.result = false → Interesting.interesting st cacheKey tmpPfx fs runs =
        .ok ⟨false, stSkip st, 0, [], false⟩)
  ∧ ((entry.result = true ∧ ∀ e ∈ globMatches fs entry.pfx, e.kind ≠ .other) →
      Interesting.interesting st cacheKey tmpPfx fs runs =
        .ok ⟨true, stSkip st, 0,
          (globMatches fs entry.pfx).map
            (fun e => (e.name, tmpPfx ++ "_" ++ ((afterUnderscore e.name).getD ""), e.kind)),
          false⟩)
  ∧ ((entry.result = true ∧ ∃ e ∈ globMatches fs entry.pfx, e.kind = .other) →
      ∃ msg, Interesting.interesting st cacheKey tmpPfx fs runs = .error msg)
  ∧ (∀ name suf : String, ¬ '_' ∈ entry.pfx.data → name = entry.pfx ++ "_" ++ suf →
      afterUnderscore name = some suf) := by
  obtain ⟨f1, f2, f3, f4, f5⟩ := stSkip_fields st
  have heq := interesting_eq_evalCore st cacheKey tmpPfx fs runs hskip
  obtain ⟨h1, h2, h3⟩ := evalCore_hit_spec (stSkip st) cacheKey tmpPfx fs runs entry
    (by rw [f3]; exact hc) (by rw [f4]; exact hhit)
  refine ⟨?_, ?_, ?_, ?_⟩
  · intro hf
    rw [heq]
    exact h1 hf
  · intro h
    rw [heq]
    exact h2 h
  · intro h
    rw [heq]
    exact h3 h
  · intro name suf hnm hname
    have hdata : name.data = entry.pfx.data ++ '_' :: suf.data := by
      rw [hname, string_data_append, string_data_append, List.append_assoc]
      rfl
    unfold afterUnderscore
    rw [hdata, afterAux_append suf.data entry.pfx.data hnm]
    rfl

/-- Witness for C4 (amended): a cached-false hit returns false with zero
trials and no copies, and a cached-true hit with an underscore-free prefix
"q" replays "q_logs" to "p_logs" as a directory. -/
theorem C4_cache_hit_witness :
    Interesting.interesting
        ⟨0, none, 1, 1, false, true, [("K", ⟨false, "q"⟩)], none, false, false, 60, 60, true⟩
        "K" "p" [] (fun _ => false) =
      .ok ⟨false, stSkip
        ⟨0, none, 1, 1, false, true, [("K", ⟨false, "q"⟩)], none, false, false, 60, 60, true⟩,
        0, [], false⟩
  ∧ Interesting.interesting
        ⟨0, none, 1, 1, false, true, [("K", ⟨true, "q"⟩)], none, false, false, 60, 60, true⟩
        "K" "p" [⟨"q_logs", .dir⟩] (fun _ => false) =
      .ok ⟨true, stSkip
        ⟨0, none, 1, 1, false, true, [("K", ⟨true, "q"⟩)], none, false, false, 60, 60, true⟩,
        0, (globMatches [⟨"q_logs", .dir⟩] "q").map
          (fun e => (e.name, "p" ++ "_" ++ ((afterUnderscore e.name).getD ""), e.kind)),
        false⟩ :=
  ⟨(C4_cache_hit
      ⟨0, none, 1, 1, false, true, [("K", ⟨false, "q"⟩)], none, false, false, 60, 60, true⟩
      "K" "p" [] (fun _ => false) ⟨false, "q"⟩ (by decide) rfl rfl).1 rfl,
   (C4_cache_hit
      ⟨0, none, 1, 1, false, true, [("K", ⟨true, "q"⟩)], none, false, false, 60, 60, true⟩
      "K" "p" [⟨"q_logs", .dir⟩] (fun _ => false) ⟨true, "q"⟩ (by decide) rfl rfl).2.1
     ⟨rfl, by decide⟩⟩

/-- C5 counterexample: with `skip = 1` and the counter unset, the session's
FIRST `interesting` call initializes the counter and proceeds to run a trial
(here returning verdict true after 1 run), instead of returning false with
zero runs as the claim states for the first N calls. -/
theorem C5_skip_counterexample :
    (⟨1, none, 1, 1, false, false, [], none, false, false, 60, 60, true⟩
        : Interesting).skip = 1
  ∧ (⟨1, none, 1, 1, false, false, [], none, false, false, 60, 60, true⟩
        : Interesting).skipped = none
  ∧ evalResult (Interesting.interesting
        ⟨1, none, 1, 1, false, false, [], none, false, false, 60, 60, true⟩
        "k" "p" [] (fun _ => true)) = some true
  ∧ evalRuns (Interesting.interesting
        ⟨1, none, 1, 1, false, false, [], none, false, false, 60, 60, true⟩
        "k" "p" [] (fun _ => true)) = some 1 := by
  refine ⟨rfl, rfl, ?_, ?_⟩ <;> rfl

/-- C5 (amended): with `skip = N > 0`, a call with the counter unset (the
session's first) initializes it to 0 and evaluates normally; every later call
whose counter is still below N increments it and returns false immediately
with zero target runs — so calls 2 through N+1 are the skipped ones — and
once the counter has reached N calls evaluate normally again; the counter
persists across calls within the session and is reset (together with the
result cache) by `init`. -/
theorem C5_skip (st : Interesting) (k p : String) (fs : List FsEntry)
    (runs : Nat → Bool) (hpos : 0 < st.skip) :
    (st.skipped = none → Interesting.interesting st k p fs runs =
        evalCore { st with skipped := some 0 } k p fs runs)
  ∧ (∀ j, st.skipped = some j → j < st.skip →
      Interesting.interesting st k p fs runs =
        .ok ⟨false, { st with skipped := some (j + 1) }, 0, [], false⟩)
  ∧ (∀ j, st.skipped = some j → st.skip ≤ j →
      Interesting.interesting st k p fs runs = evalCore st k p fs runs)
  ∧ (Interesting.init st).skipped = none
  ∧ (Interesting.init st).result_cache = [] := by
  have h0 : st.skip ≠ 0 := Nat.pos_iff_ne_zero.mp hpos
  refine ⟨?_, ?_, ?_, rfl, rfl⟩
  · intro hn
    simp [Interesting.interesting, h0, hn]
  · intro j hj hlt
    simp [Interesting.interesting, h0, hj, hlt]
  · intro j hj hge
    simp [Interesting.interesting, h0, hj, Nat.not_lt.mpr hge]

/-- Witness for C5 (amended): with `skip = 2` and counter 0, a call bumps the
counter and returns false with zero runs. -/
theorem C5_skip_witness :
    Interesting.interesting
        ⟨2, some 0, 1, 1, false, false, [], none, false, false, 60, 60, true⟩
        "k" "p" [] (fun _ => true) =
      .ok ⟨false, ⟨2, some 1, 1, 1, false, false, [], none, false, false, 60, 60, true⟩,
        0, [], false⟩ :=
  (C5_skip ⟨2, some 0, 1, 1, false, false, [], none, false, false, 60, 60, true⟩
    "k" "p" [] (fun _ => true) (by decide)).2.1 0 rfl (by decide)
